import Mathlib

/-!
# Verification of the movie-tally-time session/ranking core

A shallow embedding of the state-reconciliation and ranking logic of the
`movie-tally-time` repository, together with proofs of the spec's testable
properties.

Modelling conventions:
* JavaScript `Record<string, T>` maps are association lists `List (String × T)`
  in insertion order with unique keys (the `Record` invariant).
* JavaScript numbers holding pre-watch scores are `Int` (the stored scores are
  integers 1–5); computed averages are `Rat` (exact rational arithmetic stands
  in for IEEE doubles; every claim below is about which scores are counted, not
  about rounding).  Post-watch detailed scores are `Rat` (half-point 0–10).
* `Array.prototype.sort` (stable since ES2019) with comparator `c` is modelled
  as `List.mergeSort` with `le a b ⟺ c a b ≤ 0`; `String.localeCompare` is
  modelled as the lexicographic order on `String`.
* Optional / nullable TS fields are `Option`; the JS falsiness of the empty
  string is checked explicitly where the source relies on it.
* `supabase` point operations are pure functions on explicit table states;
  `.single()` yields a row only when the filter matches exactly one row, and
  `.maybeSingle()` additionally yields `none` (instead of an error) on zero
  rows.  A thrown persistence error aborts the enclosing `try` block at the
  point of the throw, leaving all earlier effects applied.
-/

namespace MovieTally

/-- `Person` from `src/types/session.ts`: a session participant as held in the
Session State Store. -/
structure Person where
  id : String
  name : String
  isPresent : Bool
  movies : List String
  deriving Repr, DecidableEq

/-- A `Record<string, number>` of scores keyed by person id, in insertion
order. -/
abbrev RatingsMap := List (String × Int)

/-- `movie.ratings[pid]`: first entry with the key (keys are unique in a JS
record, so "first" is "the" entry). -/
def lookupScore (m : RatingsMap) (pid : String) : Option Int :=
  (m.find? (fun kv => kv.1 == pid)).map (·.2)

/-- `MovieRating` from `src/types/session.ts`: one proposal with its rating
map, as held in the Session State Store. -/
structure MovieRating where
  movieTitle : String
  proposedBy : String
  ratings : RatingsMap
  proposalId : Option String
  proposerId : Option String
  deriving Repr, DecidableEq

/-- `MovieWithStats` from `src/types/session.ts`: a proposal enriched with the
computed average and count. -/
structure MovieWithStats extends MovieRating where
  averageRating : Rat
  totalRatings : Nat
  deriving Repr, DecidableEq

/-- `presentPeople` (`useMovieSession.ts`): `people.filter(p => p.isPresent)`. -/
def presentPeople (people : List Person) : List Person :=
  people.filter (·.isPresent)

/-- The `validRatings` list computed inside `rankedMovies`
(`useMovieSession.ts`):
`presentPeople.map(p => movie.ratings[p.id]).filter(r => typeof r === "number" && r > 0)`. -/
def validRatings (present : List Person) (m : MovieRating) : List Int :=
  ((present.map (fun p => lookupScore m.ratings p.id)).filterMap id).filter
    (fun r => 0 < r)

/-- The `map` stage of `rankedMovies`: attach `averageRating` and
`totalRatings` to a proposal. -/
def withStats (present : List Person) (m : MovieRating) : MovieWithStats :=
  let valid := validRatings present m
  { m with
    averageRating := if 0 < valid.length then (valid.sum : Rat) / (valid.length : Rat) else 0
    totalRatings := valid.length }

/-- The `filter` stage of `rankedMovies`: keep a proposal only when its
proposer id is truthy and present, and some present non-proposer has a
positive score on it. -/
def passesRankedFilter (present : List Person) (m : MovieWithStats) : Bool :=
  match m.proposerId with
  | none => false
  | some pid =>
    if pid == "" then false
    else if !(present.any (fun p => p.id == pid)) then false
    else present.any (fun p =>
      p.id != pid &&
        (match lookupScore m.ratings p.id with
         | some r => decide (0 < r)
         | none => false))

/-- The list `rankedMovies` sorts: proposals with stats attached, filtered to
present proposers with a present non-proposer vote, in encounter order. -/
def rankedPool (people : List Person) (movies : List MovieRating) :
    List MovieWithStats :=
  (movies.map (withStats (presentPeople people))).filter
    (passesRankedFilter (presentPeople people))

/-- Descending-average order: the stable-sort order induced by the JS
comparator `(a, b) => b.averageRating - a.averageRating`. -/
def rankedLe (a b : MovieWithStats) : Bool :=
  decide (b.averageRating ≤ a.averageRating)

/-- `rankedMovies` (`useMovieSession.ts`): stats, inclusion filter, stable
descending sort by average. -/
def rankedMovies (people : List Person) (movies : List MovieRating) :
    List MovieWithStats :=
  (rankedPool people movies).mergeSort rankedLe

/-- `aRated` / `bRated` in the rate-tab comparator (`sortMovieRatings` in the
session helpers, `getSortedMovies` in `useMovieSession.ts`):
`m.ratings[personId] !== undefined && m.ratings[personId] > 0`. -/
def ratedBy (m : MovieRating) (personId : String) : Bool :=
  match lookupScore m.ratings personId with
  | some r => decide (0 < r)
  | none => false

/-- Alphabetical order on titles: the stable-sort order of the comparator
`(a, b) => a.movieTitle.localeCompare(b.movieTitle)` (localeCompare modelled
as the lexicographic order on `String`). -/
def titleLe (a b : MovieRating) : Bool :=
  decide (a.movieTitle ≤ b.movieTitle)

/-- The stable-sort order of the rate-tab comparator: not-voted first, then
voted; alphabetical within a group. -/
def rateSortLe (personId : String) (a b : MovieRating) : Bool :=
  if ratedBy a personId != ratedBy b personId then !(ratedBy a personId)
  else titleLe a b

/-- `sortMovieRatings` (session helpers): alphabetical when no person is
selected, otherwise unrated-first grouping with alphabetical subgroups. -/
def sortMovieRatings (ratings : List MovieRating) (personId : String) :
    List MovieRating :=
  if personId == "" then ratings.mergeSort titleLe
  else ratings.mergeSort (rateSortLe personId)

/-- `getSortedMovies` (`useMovieSession.ts`): identical comparator, plus the
`shouldSort` suppression guard that returns the current order untouched. -/
def getSortedMovies (shouldSort : Bool) (selectedPersonId : String)
    (movieRatings : List MovieRating) : List MovieRating :=
  if !shouldSort then movieRatings
  else if selectedPersonId == "" then movieRatings.mergeSort titleLe
  else movieRatings.mergeSort (rateSortLe selectedPersonId)

/-- Spec-side counterpart of `validRatings`, written from the spec's words
("the mean of exactly those ratings belonging to present people with score
> 0"): select the rating-map entries whose key belongs to a present person and
whose score is positive, and take their scores. -/
def qualifyingScores (present : List Person) (rm : RatingsMap) : List Int :=
  (rm.filter (fun kv =>
    present.any (fun p => p.id == kv.1) && decide (0 < kv.2))).map (·.2)

/-- Concrete proposal list used to witness the rate-tab ordering theorem. -/
def moviesC2 : List MovieRating :=
  [⟨"Solaris", "A", [("b", 4)], some "p1", some "a"⟩,
   ⟨"Alien", "B", [], some "p2", some "b"⟩]

/-- Concrete roster used to witness the `rankedMovies` membership theorem:
A and B present, C absent. -/
def rosterC1 : List Person :=
  [⟨"a", "A", true, ["Dune"]⟩, ⟨"b", "B", true, []⟩, ⟨"c", "C", false, []⟩]

/-- Concrete proposal used to witness the `rankedMovies` membership theorem:
proposed by A, rated by A, B and the absent C. -/
def proposalC1 : MovieRating :=
  ⟨"Dune", "A", [("a", 5), ("b", 3), ("c", 1)], some "p1", some "a"⟩

/-- A `movie_proposals` row (metadata columns not consulted by the claims are
omitted). -/
structure ProposalRow where
  id : String
  session_id : String
  person_id : String
  movie_title : String
  deriving Repr, DecidableEq

/-- A `movie_ratings` row; `watched_movie_id` is the re-pointing column set by
the promotion flow. -/
structure RatingRow where
  id : String
  proposal_id : String
  person_id : String
  rating : Int
  watched_movie_id : Option String
  deriving Repr, DecidableEq

/-- A `proposal_comments` row. -/
structure CommentRow where
  id : String
  proposal_id : String
  comment : String
  deriving Repr, DecidableEq

/-- A `watched_movies` row (metadata columns omitted). -/
structure WatchedRow where
  id : String
  session_id : String
  movie_title : String
  proposed_by : String
  watched_at : String
  deriving Repr, DecidableEq

/-- The persistence tables of one session together with the Session State
Store's local mirror (`people`, `movieRatings`) and the sort-suppression
flag. -/
structure SessionState where
  proposals : List ProposalRow
  ratings : List RatingRow
  comments : List CommentRow
  watched : List WatchedRow
  people : List Person
  movieRatings : List MovieRating
  shouldSort : Bool
  deriving Repr, DecidableEq

/-- `.single()` / `.maybeSingle()` row extraction: a row only when the filtered
result has exactly one row (supabase errors on 0-or-many and the callers
ignore the error, leaving `data` null). -/
def singleRow? {α : Type} : List α → Option α
  | [a] => some a
  | _ => none

/-- `delete newRatings[personId]` on a `Record<string, number>`. -/
def deleteScore (rm : RatingsMap) (pid : String) : RatingsMap :=
  rm.filter (fun kv => kv.1 != pid)

/-- `{ ...movie.ratings, [personId]: rating }`: overwrite in place when the key
exists (JS records keep the original key position), else append. -/
def setScore (rm : RatingsMap) (pid : String) (v : Int) : RatingsMap :=
  if rm.any (fun kv => kv.1 == pid) then
    rm.map (fun kv => if kv.1 == pid then (kv.1, v) else kv)
  else rm ++ [(pid, v)]

/-- `upsert` on `movie_ratings` with `onConflict: "proposal_id,person_id"`. -/
def upsertRatingRow (rows : List RatingRow) (proposalId personId : String)
    (v : Int) (newId : String) : List RatingRow :=
  if rows.any (fun r => r.proposal_id == proposalId && r.person_id == personId) then
    rows.map (fun r =>
      if r.proposal_id == proposalId && r.person_id == personId then
        { r with rating := v }
      else r)
  else rows ++ [⟨newId, proposalId, personId, v, none⟩]

/-- `updateRating` (`useMovieSession.ts`): resolve the proposal by
title+session, then either delete the rating row (score 0) or upsert it, mirror
the change into the local map, and suppress re-sorting. -/
def updateRating (sessionId movieTitle personId : String) (rating : Int)
    (newRatingId : String) (s : SessionState) : SessionState :=
  match s.proposals.filter
      (fun p => p.movie_title == movieTitle && p.session_id == sessionId) with
  | [] => s
  | p :: _ =>
    if rating = 0 then
      { s with
        ratings := s.ratings.filter
          (fun r => !(r.proposal_id == p.id && r.person_id == personId))
        movieRatings := s.movieRatings.map (fun m =>
          if m.movieTitle == movieTitle then
            { m with ratings := deleteScore m.ratings personId }
          else m)
        shouldSort := false }
    else
      { s with
        ratings := upsertRatingRow s.ratings p.id personId rating newRatingId
        movieRatings := s.movieRatings.map (fun m =>
          if m.movieTitle == movieTitle then
            { m with ratings := setScore m.ratings personId rating }
          else m)
        shouldSort := false }

/-- Concrete session state used to witness the rating-clear theorem. -/
def stateC4 : SessionState :=
  { proposals := [⟨"p1", "s1", "a", "Dune"⟩]
    ratings := [⟨"r1", "p1", "b", 3, none⟩]
    comments := []
    watched := []
    people := []
    movieRatings := [⟨"Dune", "A", [("b", 3)], some "p1", some "a"⟩]
    shouldSort := true }

/-- The proposer-name read in `markMovieAsWatched`:
`proposer?.name || 'Unknown'`. -/
def proposerNameFor (people : List Person) (personId : String) : String :=
  match singleRow? (people.filter (fun per => per.id == personId)) with
  | some per => if per.name == "" then "Unknown" else per.name
  | none => "Unknown"

/-- `markMovieAsWatched` (`useMovieSession.ts`), with its error handling taken
from the source: the supabase client returns error results rather than
throwing, and only the proposal read (`if (proposalError) throw proposalError`)
and the watched-movie insert (`if (insertError) throw insertError`) check
theirs.  `failAt = some k` models the `k`-th persistence call failing: step 0
(proposal read) and step 2 (watched insert) abort via the thrown error, step 1
(proposer-name read) falls back to `'Unknown'` and continues, and steps 3
(rating re-point), 4 (comment delete) and 5 (proposal delete) discard their
error result, so execution continues with the failed call simply having had no
effect.  A successful proposal delete cascades over
`movie_ratings.proposal_id` — declared `NOT NULL REFERENCES
movie_proposals(id) ON DELETE CASCADE` in migration `20250823173627` — and the
re-point step sets `watched_movie_id` without ever nulling `proposal_id`. -/
def markMovieAsWatched (sessionId movieTitle watchedId now : String)
    (confirmed : Bool) (failAt : Option Nat) (s : SessionState) :
    SessionState :=
  if sessionId == "" then s
  else if !confirmed then s
  else if failAt = some 0 then s
  else
    match singleRow? (s.proposals.filter
        (fun q => q.session_id == sessionId && q.movie_title == movieTitle)) with
    | none => s
    | some proposal =>
      let proposedBy := if failAt = some 1 then "Unknown"
        else proposerNameFor s.people proposal.person_id
      if failAt = some 2 then s
      else
        let s2 : SessionState := { s with watched := s.watched ++
          [⟨watchedId, sessionId, movieTitle, proposedBy, now⟩] }
        let s3 : SessionState := if failAt = some 3 then s2
          else { s2 with ratings := s2.ratings.map (fun r =>
            if r.proposal_id == proposal.id then
              { r with watched_movie_id := some watchedId }
            else r) }
        let s4 : SessionState := if failAt = some 4 then s3
          else { s3 with comments := s3.comments.filter (fun c =>
            c.proposal_id != proposal.id) }
        let s5 : SessionState := if failAt = some 5 then s4
          else { s4 with
            proposals := s4.proposals.filter (fun q => q.id != proposal.id)
            ratings := s4.ratings.filter (fun r => r.proposal_id != proposal.id) }
        { s5 with
          movieRatings := s5.movieRatings.filter (fun m =>
            m.movieTitle != movieTitle)
          people := s5.people.map (fun per =>
            { per with movies := per.movies.filter (fun t =>
              t != movieTitle) }) }

/-- Concrete session state on which the promotion flow is evaluated: proposal
p1 ("Dune" by person a) carries rating row r1 from person b and one comment. -/
def stateC5 : SessionState :=
  { proposals := [⟨"p1", "s1", "a", "Dune"⟩, ⟨"p9", "s1", "b", "Solo"⟩]
    ratings := [⟨"r1", "p1", "b", 3, none⟩, ⟨"r2", "p9", "a", 4, none⟩]
    comments := [⟨"c1", "p1", "hype"⟩]
    watched := []
    people := [⟨"a", "A", true, ["Dune"]⟩, ⟨"b", "B", true, ["Solo"]⟩]
    movieRatings := [⟨"Dune", "A", [("b", 3)], some "p1", some "a"⟩]
    shouldSort := true }

/-- The `propose-movie-with-details` edge function: reject blank inputs,
return the existing proposal id when the (session, person, trimmed title)
triple already exists, else insert a fresh row (metadata enrichment does not
affect the table key and is omitted). -/
def proposeMovieWithDetails (sessionId personId movieTitle newId : String)
    (db : List ProposalRow) : Option String × List ProposalRow :=
  if sessionId == "" || personId == "" || movieTitle.trim == "" then (none, db)
  else
    match singleRow? (db.filter (fun p =>
        p.session_id == sessionId && p.person_id == personId &&
          p.movie_title == movieTitle.trim)) with
    | some row => (some row.id, db)
    | none => (some newId, db ++ [⟨newId, sessionId, personId, movieTitle.trim⟩])

/-- The invariant: a (session, proposer, title) triple identifies at most one
proposal row. -/
def proposalKeyUnique (db : List ProposalRow) : Prop :=
  ∀ p ∈ db, ∀ q ∈ db, p.session_id = q.session_id → p.person_id = q.person_id →
    p.movie_title = q.movie_title → p = q

/-- Concrete proposal table used to witness the propose-idempotence
theorem. -/
def dbC6 : List ProposalRow :=
  [⟨"p1", "s1", "a", "Dune"⟩, ⟨"p2", "s1", "b", "Dune"⟩]

/-- `DetailedRating` from `WatchedMovies/types.ts`: a post-watch half-point
score (`rating: number | null`) with the optional attendance flag. -/
structure DetailedRating where
  id : String
  watched_movie_id : String
  person_id : String
  rating : Option Rat
  present : Option Bool
  deriving Repr, DecidableEq

/-- `getRatingForPerson` (`WatchedMovies/utils.ts`):
`rating?.rating ?? null` over the first row matching the (movie, person)
pair. -/
def getRatingForPerson (movieId personId : String)
    (detailedRatings : List DetailedRating) : Option Rat :=
  (detailedRatings.find? (fun r =>
    r.watched_movie_id == movieId && r.person_id == personId)).bind
    (fun r => r.rating)

/-- Concrete detailed-rating rows used to witness the zero-vs-absent theorem:
person a stored an explicit 0, person b has a null-rated row. -/
def rowsC7 : List DetailedRating :=
  [⟨"d1", "w1", "a", some 0, some true⟩, ⟨"d2", "w1", "b", none, some true⟩]

/-- `upsert` on `detailed_ratings` with
`onConflict: "watched_movie_id,person_id"`. -/
def upsertDetailedRow (rows : List DetailedRating)
    (watchedMovieId personId : String) (rating : Option Rat)
    (present : Option Bool) (newId : String) : List DetailedRating :=
  if rows.any (fun r =>
      r.watched_movie_id == watchedMovieId && r.person_id == personId) then
    rows.map (fun r =>
      if r.watched_movie_id == watchedMovieId && r.person_id == personId then
        { r with rating := rating, present := present }
      else r)
  else rows ++ [⟨newId, watchedMovieId, personId, rating, present⟩]

/-- The local-state update in `updateDetailedRating`: replace the first
(movie, person) match in place, else append a `temp-` placeholder row. -/
def localUpsertDetailed (l : List DetailedRating)
    (watchedMovieId personId : String) (rating : Option Rat)
    (present : Option Bool) (tempId : String) : List DetailedRating :=
  match l with
  | [] => [⟨tempId, watchedMovieId, personId, rating, present⟩]
  | r :: t =>
    if r.watched_movie_id == watchedMovieId && r.person_id == personId then
      { r with rating := rating, present := present } :: t
    else r :: localUpsertDetailed t watchedMovieId personId rating present tempId

/-- `updateDetailedRating` (watched-movies hooks): guarded by
`rating !== null || present`; inside the guard, upsert the row and mirror it
locally; outside, do nothing at all. -/
def updateDetailedRating (watchedMovieId personId : String)
    (rating : Option Rat) (present : Option Bool) (newId tempId : String)
    (db localRatings : List DetailedRating) :
    List DetailedRating × List DetailedRating :=
  if rating.isSome || present == some true then
    (upsertDetailedRow db watchedMovieId personId rating present newId,
     localUpsertDetailed localRatings watchedMovieId personId rating present tempId)
  else (db, localRatings)

/-- A `favourite_movies` row. -/
structure FavouriteRow where
  id : String
  person_id : String
  proposal_id : String
  deriving Repr, DecidableEq

/-- The favourites table plus the hook's local state and the emitted toast
notices. -/
structure FavState where
  rows : List FavouriteRow
  favoriteProposalId : Option String
  notices : List String
  deriving Repr, DecidableEq

/-- `proposerPersonId && proposerPersonId === selectedPersonId`: the
own-proposal rejection guard of `toggleFavourite`. -/
def ownProposalGuard (proposerPersonId : Option String) (sel : String) : Bool :=
  match proposerPersonId with
  | some pp => pp != "" && pp == sel
  | none => false

/-- `upsert` on `favourite_movies` with `onConflict: "person_id"`. -/
def upsertFavourite (rows : List FavouriteRow)
    (personId proposalId newId : String) : List FavouriteRow :=
  if rows.any (fun r => r.person_id == personId) then
    rows.map (fun r =>
      if r.person_id == personId then { r with proposal_id := proposalId }
      else r)
  else rows ++ [⟨newId, personId, proposalId⟩]

/-- `toggleFavourite` (`useFavouriteMovie.tsx`): notice-only when no person is
selected or the proposal is the selector's own; delete when the existing
favourite is the toggled proposal; otherwise upsert keyed by person. -/
def toggleFavourite (selectedPersonId : Option String) (proposalId : String)
    (proposerPersonId : Option String) (newId : String) (s : FavState) :
    FavState :=
  match selectedPersonId with
  | none => { s with notices := s.notices ++ ["Select a person"] }
  | some sel =>
    if sel == "" then { s with notices := s.notices ++ ["Select a person"] }
    else if ownProposalGuard proposerPersonId sel then
      { s with notices := s.notices ++ ["Not allowed"] }
    else
      match singleRow? (s.rows.filter (fun r => r.person_id == sel)) with
      | some fav =>
        if fav.proposal_id == proposalId then
          { s with
            rows := s.rows.filter (fun r => r.person_id != sel)
            favoriteProposalId := none }
        else
          { s with
            rows := upsertFavourite s.rows sel proposalId newId
            favoriteProposalId := some proposalId }
      | none =>
        { s with
          rows := upsertFavourite s.rows sel proposalId newId
          favoriteProposalId := some proposalId }

/-- Concrete favourites state used to witness the toggle theorem: person b
currently favours proposal Y. -/
def sC9 : FavState :=
  { rows := [⟨"f1", "b", "Y"⟩], favoriteProposalId := some "Y", notices := [] }

/-- Concrete favourites state used to witness the un-favourite theorem: person
b currently favours proposal X. -/
def sC10 : FavState :=
  { rows := [⟨"f1", "b", "X"⟩], favoriteProposalId := some "X", notices := [] }

/-- C1: every member of `rankedMovies` originates from an input proposal and
has a truthy proposer id belonging to a present person, and some present
person other than the proposer gave it a score `> 0`. -/
theorem rankedMovies_mem_present_nonproposer
    (people : List Person) (movies : List MovieRating) (m : MovieWithStats)
    (hm : m ∈ rankedMovies people movies) :
    (∃ m0 ∈ movies, m = withStats (presentPeople people) m0) ∧
    ∃ pid, m.proposerId = some pid ∧ pid ≠ "" ∧
      (∃ p ∈ presentPeople people, p.id = pid) ∧
      (∃ q ∈ presentPeople people, q.id ≠ pid ∧
        ∃ r, lookupScore m.ratings q.id = some r ∧ 0 < r) := by
  rw [rankedMovies] at hm
  have hm' : m ∈ rankedPool people movies := List.mem_mergeSort.mp hm
  obtain ⟨hmem, hpass⟩ := List.mem_filter.mp hm'
  obtain ⟨m0, hm0, hw⟩ := List.mem_map.mp hmem
  refine ⟨⟨m0, hm0, hw.symm⟩, ?_⟩
  rw [passesRankedFilter] at hpass
  cases hpid : m.proposerId with
  | none => rw [hpid] at hpass; simp at hpass
  | some pid =>
    rw [hpid] at hpass
    simp only [] at hpass
    by_cases he : pid = ""
    · simp [he] at hpass
    · rw [if_neg (by simpa using he)] at hpass
      by_cases hp : (presentPeople people).any (fun p => p.id == pid) = true
      · simp only [hp, Bool.not_true, Bool.false_eq_true, if_false] at hpass
        obtain ⟨p, hpmem, hpe⟩ := List.any_eq_true.mp hp
        obtain ⟨q, hqmem, hqc⟩ := List.any_eq_true.mp hpass
        rw [Bool.and_eq_true] at hqc
        obtain ⟨hqne, hqs⟩ := hqc
        refine ⟨pid, rfl, he, ⟨p, hpmem, by simpa using hpe⟩, q, hqmem,
          by simpa using hqne, ?_⟩
        cases hl : lookupScore m.ratings q.id with
        | none => rw [hl] at hqs; simp at hqs
        | some r =>
          rw [hl] at hqs
          exact ⟨r, rfl, by simpa using hqs⟩
      · rw [Bool.not_eq_true] at hp
        simp [hp] at hpass

/-- C1 witness: a concrete session (present proposer, positive vote from a
present non-proposer) whose proposal does appear in `rankedMovies`. -/
theorem rankedMovies_mem_present_nonproposer_witness :
    withStats (presentPeople rosterC1) proposalC1 ∈
        rankedMovies rosterC1 [proposalC1] ∧
      ((∃ m0 ∈ [proposalC1],
          withStats (presentPeople rosterC1) proposalC1 =
            withStats (presentPeople rosterC1) m0) ∧
        ∃ pid, (withStats (presentPeople rosterC1) proposalC1).proposerId = some pid ∧
          pid ≠ "" ∧
          (∃ p ∈ presentPeople rosterC1, p.id = pid) ∧
          (∃ q ∈ presentPeople rosterC1, q.id ≠ pid ∧
            ∃ r, lookupScore (withStats (presentPeople rosterC1) proposalC1).ratings q.id =
              some r ∧ 0 < r)) :=
  have hm : withStats (presentPeople rosterC1) proposalC1 ∈
      rankedMovies rosterC1 [proposalC1] := by
    rw [rankedMovies]; exact List.mem_mergeSort.mpr (List.Mem.head _)
  ⟨hm, rankedMovies_mem_present_nonproposer rosterC1 [proposalC1] _ hm⟩

/-- `titleLe` is transitive. -/
theorem titleLe_trans : ∀ a b c : MovieRating,
    titleLe a b → titleLe b c → titleLe a c := by
  intro a b c hab hbc
  simp only [titleLe, decide_eq_true_eq] at *
  exact le_trans hab hbc

/-- `titleLe` is total. -/
theorem titleLe_total : ∀ a b : MovieRating, titleLe a b || titleLe b a := by
  intro a b
  simp only [titleLe, Bool.or_eq_true, decide_eq_true_eq]
  exact le_total _ _

/-- The rate-tab comparator order is transitive. -/
theorem rateSortLe_trans (pid : String) : ∀ a b c : MovieRating,
    rateSortLe pid a b → rateSortLe pid b c → rateSortLe pid a c := by
  intro a b c hab hbc
  unfold rateSortLe at *
  cases ha : ratedBy a pid <;> cases hb : ratedBy b pid <;>
    cases hc : ratedBy c pid <;> simp_all <;>
    exact titleLe_trans a b c hab hbc

/-- The rate-tab comparator order is total. -/
theorem rateSortLe_total (pid : String) : ∀ a b : MovieRating,
    rateSortLe pid a b || rateSortLe pid b a := by
  intro a b
  unfold rateSortLe
  cases ha : ratedBy a pid <;> cases hb : ratedBy b pid <;> simp_all
  · exact (Bool.or_eq_true _ _).mp (titleLe_total a b)
  · exact (Bool.or_eq_true _ _).mp (titleLe_total a b)

/-- C2: with a selected person, the rate-tab ordering is a permutation of its
input placing every proposal the person has not positively rated before every
rated one, alphabetical within each group; with no selected person it is
alphabetical throughout; `getSortedMovies` agrees when sorting is enabled and
returns the input untouched when suppressed. -/
theorem sortMovieRatings_spec (l : List MovieRating) (pid : String)
    (hpid : pid ≠ "") :
    (sortMovieRatings l pid).Pairwise (fun a b =>
        (ratedBy a pid = true → ratedBy b pid = true) ∧
        (ratedBy a pid = ratedBy b pid → a.movieTitle ≤ b.movieTitle)) ∧
    (sortMovieRatings l pid).Perm l ∧
    (sortMovieRatings l "").Pairwise (fun a b => a.movieTitle ≤ b.movieTitle) ∧
    getSortedMovies true pid l = sortMovieRatings l pid ∧
    getSortedMovies false pid l = l := by
  have hne : (pid == "") = false := by simpa using hpid
  refine ⟨?_, ?_, ?_, rfl, rfl⟩
  · rw [sortMovieRatings, hne]
    simp only [Bool.false_eq_true, if_false]
    have hs := List.sorted_mergeSort (rateSortLe_trans pid) (rateSortLe_total pid) l
    refine hs.imp ?_
    intro a b hab
    unfold rateSortLe at hab
    cases ha : ratedBy a pid <;> cases hb : ratedBy b pid <;> simp_all
    · exact (by simpa [titleLe] using hab)
    · exact (by simpa [titleLe] using hab)
  · rw [sortMovieRatings, hne]
    simp only [Bool.false_eq_true, if_false]
    exact List.mergeSort_perm l _
  · rw [sortMovieRatings]
    simp only [beq_self_eq_true, if_true]
    have hs := List.sorted_mergeSort titleLe_trans titleLe_total l
    exact hs.imp (by intro a b hab; simpa [titleLe] using hab)

/-- C2 witness: the rate-tab ordering theorem applied to a concrete
two-proposal list and selected person `"b"`. -/
theorem sortMovieRatings_spec_witness :
    ("b" : String) ≠ "" ∧
    ((sortMovieRatings moviesC2 "b").Pairwise (fun a b =>
        (ratedBy a "b" = true → ratedBy b "b" = true) ∧
        (ratedBy a "b" = ratedBy b "b" → a.movieTitle ≤ b.movieTitle)) ∧
      (sortMovieRatings moviesC2 "b").Perm moviesC2 ∧
      (sortMovieRatings moviesC2 "").Pairwise
        (fun a b => a.movieTitle ≤ b.movieTitle) ∧
      getSortedMovies true "b" moviesC2 = sortMovieRatings moviesC2 "b" ∧
      getSortedMovies false "b" moviesC2 = moviesC2) :=
  ⟨by decide, sortMovieRatings_spec moviesC2 "b" (by decide)⟩

/-- Filtering with a disjunction of pointwise-disjoint conditions is a
permutation of the two separate filters concatenated. -/
theorem filter_or_disjoint_perm {α : Type} (l : List α) (c1 c2 : α → Bool)
    (h : ∀ x ∈ l, ¬(c1 x = true ∧ c2 x = true)) :
    (l.filter (fun x => c1 x || c2 x)).Perm (l.filter c1 ++ l.filter c2) := by
  induction l with
  | nil => simp
  | cons a l ih =>
    have ha := h a (List.mem_cons_self a l)
    have ih' := ih (fun x hx => h x (List.mem_cons_of_mem a hx))
    cases h1 : c1 a <;> cases h2 : c2 a
    · simpa [List.filter_cons, h1, h2] using ih'
    · simp only [List.filter_cons, h1, h2, Bool.false_or, cond_true, cond_false]
      exact (ih'.cons a).trans List.perm_middle.symm
    · simpa [List.filter_cons, h1, h2] using ih'.cons a
    · exact absurd ⟨h1, h2⟩ ha

/-- Over a map with unique keys, filtering to a single key and projecting the
value is exactly the (filtered) result of `lookupScore`. -/
theorem filter_single_key (rm : RatingsMap) (x : String) (c : Int → Bool)
    (hk : (rm.map Prod.fst).Nodup) :
    ((rm.filter (fun kv => x == kv.1 && c kv.2)).map (·.2)) =
      ((lookupScore rm x).filter c).toList := by
  induction rm with
  | nil => simp [lookupScore]
  | cons kv rm ih =>
    rw [List.map_cons, List.nodup_cons] at hk
    obtain ⟨hknot, hknd⟩ := hk
    by_cases he : kv.1 = x
    · have hnone : rm.filter (fun kv' => x == kv'.1 && c kv'.2) = [] := by
        rw [List.filter_eq_nil_iff]
        intro kv' hkv'
        have : kv'.1 ≠ x := fun hcontra => hknot (by rw [he, ← hcontra]; exact List.mem_map_of_mem Prod.fst hkv')
        simp [this, Ne.symm this]
      rw [List.filter_cons]
      rw [lookupScore, List.find?_cons_of_pos _ (by simp [he])]
      simp only [he, beq_self_eq_true, Bool.true_and]
      cases hc : c kv.2
      · simp [hnone, Option.filter, hc]
      · simp [hnone, Option.filter, hc]
    · rw [List.filter_cons]
      rw [lookupScore, List.find?_cons_of_neg _ (by simp [he])]
      simp only [show (x == kv.1) = false by simp [Ne.symm he], Bool.false_and, cond_false]
      exact ih hknd



/-- `validRatings` as a single `filterMap` over the present people. -/
theorem validRatings_eq_filterMap (present : List Person) (m : MovieRating) :
    validRatings present m =
      present.filterMap
        (fun p => (lookupScore m.ratings p.id).filter (fun r => 0 < r)) := by
  rw [validRatings, List.filterMap_map, List.filter_filterMap]
  rfl

/-- Refinement: with unique person ids and unique rating-map keys, the score
list the code averages is a permutation of the spec's qualifying scores. -/
theorem validRatings_perm_qualifyingScores (present : List Person)
    (m : MovieRating) (hp : (present.map Person.id).Nodup)
    (hk : (m.ratings.map Prod.fst).Nodup) :
    (validRatings present m).Perm (qualifyingScores present m.ratings) := by
  rw [validRatings_eq_filterMap]
  induction present with
  | nil =>
    simp [qualifyingScores]
  | cons p P ih =>
    rw [List.map_cons, List.nodup_cons] at hp
    obtain ⟨hpnot, hpnd⟩ := hp
    have ih' := ih hpnd
    have hcond : ∀ kv ∈ m.ratings,
        ((p :: P).any (fun q => q.id == kv.1) && decide (0 < kv.2)) =
          ((p.id == kv.1 && decide (0 < kv.2)) ||
            (P.any (fun q => q.id == kv.1) && decide (0 < kv.2))) := by
      intro kv _
      rw [List.any_cons]
      cases h1 : (p.id == kv.1) <;> cases h2 : P.any (fun q => q.id == kv.1) <;> simp
    have hdisj : ∀ kv ∈ m.ratings,
        ¬((p.id == kv.1 && decide (0 < kv.2)) = true ∧
          (P.any (fun q => q.id == kv.1) && decide (0 < kv.2)) = true) := by
      intro kv _ hcontra
      obtain ⟨h1, h2⟩ := hcontra
      rw [Bool.and_eq_true] at h1 h2
      obtain ⟨q, hq, hqe⟩ := List.any_eq_true.mp h2.1
      refine hpnot ?_
      rw [beq_iff_eq] at hqe
      rw [beq_iff_eq] at h1
      rw [← h1.1] at hqe
      exact hqe ▸ List.mem_map_of_mem Person.id hq
    have hsplit : (qualifyingScores (p :: P) m.ratings).Perm
        ((((lookupScore m.ratings p.id).filter (fun r => decide (0 < r))).toList) ++
          qualifyingScores P m.ratings) := by
      rw [qualifyingScores, List.filter_congr hcond,
        ← filter_single_key m.ratings p.id (fun r => decide (0 < r)) hk]
      calc ((m.ratings.filter (fun kv =>
              (p.id == kv.1 && decide (0 < kv.2)) ||
                (P.any (fun q => q.id == kv.1) && decide (0 < kv.2)))).map (·.2)).Perm
            ((m.ratings.filter (fun kv => p.id == kv.1 && decide (0 < kv.2)) ++
              m.ratings.filter (fun kv =>
                P.any (fun q => q.id == kv.1) && decide (0 < kv.2))).map (·.2)) :=
          (filter_or_disjoint_perm m.ratings _ _ hdisj).map (·.2)
        _ = _ := List.map_append _ _ _
    refine List.Perm.trans ?_ hsplit.symm
    rw [List.filterMap_cons]
    cases hg : (lookupScore m.ratings p.id).filter (fun r => decide (0 < r)) with
    | none => simpa [hg] using ih'
    | some v => simpa [hg] using ih'.cons v



/-- The descending-average order is transitive. -/
theorem rankedLe_trans : ∀ a b c : MovieWithStats,
    rankedLe a b → rankedLe b c → rankedLe a c := by
  intro a b c hab hbc
  simp only [rankedLe, decide_eq_true_eq] at *
  exact le_trans hbc hab

/-- The descending-average order is total. -/
theorem rankedLe_total : ∀ a b : MovieWithStats,
    rankedLe a b || rankedLe b a := by
  intro a b
  simp only [rankedLe, Bool.or_eq_true, decide_eq_true_eq]
  exact le_total _ _

/-- C3: `averageRating` is the mean of exactly the qualifying scores (present
person, score > 0) and `totalRatings` their count, with average 0 for zero
qualifying scores; `rankedMovies` is sorted by descending average, and ties
keep their encounter order (any equal-average pair in pool order stays in that
order). -/
theorem rankedMovies_average_and_order
    (people : List Person) (movies : List MovieRating)
    (hp : (people.map Person.id).Nodup)
    (hk : ∀ m ∈ movies, (m.ratings.map Prod.fst).Nodup) :
    (∀ m ∈ movies,
      (withStats (presentPeople people) m).totalRatings =
        (qualifyingScores (presentPeople people) m.ratings).length ∧
      (withStats (presentPeople people) m).averageRating =
        (if (qualifyingScores (presentPeople people) m.ratings).length = 0 then 0
         else ((qualifyingScores (presentPeople people) m.ratings).sum : Rat) /
           ((qualifyingScores (presentPeople people) m.ratings).length : Rat))) ∧
    (rankedMovies people movies).Pairwise
      (fun a b => b.averageRating ≤ a.averageRating) ∧
    (∀ a b : MovieWithStats, [a, b].Sublist (rankedPool people movies) →
      a.averageRating = b.averageRating →
      [a, b].Sublist (rankedMovies people movies)) := by
  have hpres : ((presentPeople people).map Person.id).Nodup :=
    hp.sublist ((List.filter_sublist people).map Person.id)
  refine ⟨?_, ?_, ?_⟩
  · intro m hm
    have hperm := validRatings_perm_qualifyingScores (presentPeople people) m
      hpres (hk m hm)
    have hlen := hperm.length_eq
    have hsum := hperm.sum_eq
    constructor
    · simp only [withStats]
      exact hlen
    · simp only [withStats]
      rw [hlen, hsum]
      rcases Nat.eq_zero_or_pos (qualifyingScores (presentPeople people) m.ratings).length with h0 | h0
      · simp [h0]
      · rw [if_pos h0, if_neg (Nat.pos_iff_ne_zero.mp h0)]
  · have hs := List.sorted_mergeSort rankedLe_trans rankedLe_total
      (rankedPool people movies)
    rw [rankedMovies]
    exact hs.imp (by intro a b hab; simpa [rankedLe] using hab)
  · intro a b hsub heq
    rw [rankedMovies]
    exact List.pair_sublist_mergeSort rankedLe_trans rankedLe_total
      (by simp [rankedLe, heq]) hsub



/-- C3 witness: the averaging/ordering theorem applied to the concrete
session of `rosterC1`. -/
theorem rankedMovies_average_and_order_witness :
    (rosterC1.map Person.id).Nodup ∧
    (∀ m ∈ [proposalC1], (m.ratings.map Prod.fst).Nodup) ∧
    ((∀ m ∈ [proposalC1],
      (withStats (presentPeople rosterC1) m).totalRatings =
        (qualifyingScores (presentPeople rosterC1) m.ratings).length ∧
      (withStats (presentPeople rosterC1) m).averageRating =
        (if (qualifyingScores (presentPeople rosterC1) m.ratings).length = 0 then 0
         else ((qualifyingScores (presentPeople rosterC1) m.ratings).sum : Rat) /
           ((qualifyingScores (presentPeople rosterC1) m.ratings).length : Rat))) ∧
    (rankedMovies rosterC1 [proposalC1]).Pairwise
      (fun a b => b.averageRating ≤ a.averageRating) ∧
    (∀ a b : MovieWithStats, [a, b].Sublist (rankedPool rosterC1 [proposalC1]) →
      a.averageRating = b.averageRating →
      [a, b].Sublist (rankedMovies rosterC1 [proposalC1]))) :=
  ⟨by decide, by decide,
    rankedMovies_average_and_order rosterC1 [proposalC1] (by decide) (by decide)⟩

/-- A map that fixes every member of a list leaves the list unchanged. -/
theorem map_eq_self_of_mem {α : Type} {f : α → α} {l : List α}
    (h : ∀ x ∈ l, f x = x) : l.map f = l := by
  rw [List.map_congr_left h]
  exact List.map_id' l

/-- C4: rating 0 deletes the `(proposal, person)` rating row and the local map
entry: afterwards neither the table nor any local map for that title has an
entry for the pair; and on a state where the pair was never rated, both the
table and the local maps are left entirely unchanged. -/
theorem updateRating_zero_clears (sessionId movieTitle personId newId : String)
    (s : SessionState) (p : ProposalRow) (rest : List ProposalRow)
    (hres : s.proposals.filter
        (fun q => q.movie_title == movieTitle && q.session_id == sessionId) =
      p :: rest) :
    (∀ m ∈ (updateRating sessionId movieTitle personId 0 newId s).movieRatings,
      m.movieTitle = movieTitle → lookupScore m.ratings personId = none) ∧
    (∀ r ∈ (updateRating sessionId movieTitle personId 0 newId s).ratings,
      ¬(r.proposal_id = p.id ∧ r.person_id = personId)) ∧
    ((∀ r ∈ s.ratings, ¬(r.proposal_id = p.id ∧ r.person_id = personId)) →
      (updateRating sessionId movieTitle personId 0 newId s).ratings = s.ratings) ∧
    ((∀ m ∈ s.movieRatings, m.movieTitle = movieTitle →
        lookupScore m.ratings personId = none) →
      (updateRating sessionId movieTitle personId 0 newId s).movieRatings =
        s.movieRatings) := by
  have hupd : updateRating sessionId movieTitle personId 0 newId s =
      { s with
        ratings := s.ratings.filter
          (fun r => !(r.proposal_id == p.id && r.person_id == personId))
        movieRatings := s.movieRatings.map (fun m =>
          if m.movieTitle == movieTitle then
            { m with ratings := deleteScore m.ratings personId }
          else m)
        shouldSort := false } := by
    rw [updateRating, hres]
    exact if_pos rfl
  rw [hupd]
  refine ⟨?_, ?_, ?_, ?_⟩
  · intro m hm hmt
    obtain ⟨m0, hm0, hmap⟩ := List.mem_map.mp hm
    by_cases ht : (m0.movieTitle == movieTitle) = true
    · rw [if_pos ht] at hmap
      subst hmap
      simp only [lookupScore, deleteScore]
      rw [Option.map_eq_none', List.find?_eq_none]
      intro kv hkv
      have := (List.mem_filter.mp hkv).2
      simpa using this
    · rw [if_neg ht] at hmap
      subst hmap
      exact absurd (by simp [hmt]) ht
  · intro r hr hcontra
    have := (List.mem_filter.mp hr).2
    simp only [Bool.not_eq_true'] at this
    rw [Bool.and_eq_false_iff] at this
    rcases this with h | h <;> simp [hcontra.1, hcontra.2] at h
  · intro hnone
    show s.ratings.filter _ = s.ratings
    rw [List.filter_eq_self]
    intro r hr
    have := hnone r hr
    simp only [Bool.not_eq_true']
    rw [Bool.and_eq_false_iff]
    by_cases h1 : r.proposal_id = p.id
    · right
      by_cases h2 : r.person_id = personId
      · exact absurd ⟨h1, h2⟩ this
      · simpa using h2
    · left
      simpa using h1
  · intro hnone
    show s.movieRatings.map _ = s.movieRatings
    refine map_eq_self_of_mem ?_
    intro m hm
    by_cases ht : (m.movieTitle == movieTitle) = true
    · rw [if_pos ht]
      have hlook := hnone m hm (by simpa using ht)
      have hds : deleteScore m.ratings personId = m.ratings := by
        rw [deleteScore, List.filter_eq_self]
        intro kv hkv
        simp only [bne_iff_ne, ne_eq]
        intro hcontra
        rw [lookupScore, Option.map_eq_none', List.find?_eq_none] at hlook
        exact absurd (by simpa using hcontra) (by simpa using hlook kv hkv)
      rw [hds]
    · rw [if_neg ht]

/-- C4 witness: the rating-clear theorem applied to a concrete state holding
one rating for the pair. -/
theorem updateRating_zero_clears_witness :
    stateC4.proposals.filter
        (fun q => q.movie_title == "Dune" && q.session_id == "s1") =
      (⟨"p1", "s1", "a", "Dune"⟩ : ProposalRow) :: [] ∧
    ((∀ m ∈ (updateRating "s1" "Dune" "b" 0 "r2" stateC4).movieRatings,
      m.movieTitle = "Dune" → lookupScore m.ratings "b" = none) ∧
    (∀ r ∈ (updateRating "s1" "Dune" "b" 0 "r2" stateC4).ratings,
      ¬(r.proposal_id = "p1" ∧ r.person_id = "b")) ∧
    ((∀ r ∈ stateC4.ratings, ¬(r.proposal_id = "p1" ∧ r.person_id = "b")) →
      (updateRating "s1" "Dune" "b" 0 "r2" stateC4).ratings = stateC4.ratings) ∧
    ((∀ m ∈ stateC4.movieRatings, m.movieTitle = "Dune" →
        lookupScore m.ratings "b" = none) →
      (updateRating "s1" "Dune" "b" 0 "r2" stateC4).movieRatings =
        stateC4.movieRatings)) :=
  ⟨by decide, updateRating_zero_clears "s1" "Dune" "b" "r2" stateC4 ⟨"p1", "s1", "a", "Dune"⟩ [] (by decide)⟩

/-- C5 (code bug, evaluated on `stateC5`): promotion does not behave as the
claim requires.  (i) On the success path the pre-existing rating row r1 on the
promoted proposal is not preserved: the proposal delete cascades over the
never-nulled `proposal_id`, so the freshly re-pointed row is deleted and no
rating row for (proposal p1, person b) survives in any form — only the
unrelated row r2 remains.  (ii) When the rating re-point call fails, its error
result is discarded and the proposal delete still runs, so the proposal row is
not left intact (and the cascade destroys the never-re-pointed rating row
too). -/
theorem markMovieAsWatched_code_bug :
    ((markMovieAsWatched "s1" "Dune" "w1" "t0" true none stateC5).ratings =
      [⟨"r2", "p9", "a", 4, none⟩]) ∧
    ((markMovieAsWatched "s1" "Dune" "w1" "t0" true none stateC5).ratings.filter
      (fun r => r.id == "r1") = []) ∧
    ((markMovieAsWatched "s1" "Dune" "w1" "t0" true (some 3) stateC5).proposals.filter
      (fun q => q.id == "p1") = []) ∧
    ((markMovieAsWatched "s1" "Dune" "w1" "t0" true (some 3) stateC5).ratings =
      [⟨"r2", "p9", "a", 4, none⟩]) := by
  refine ⟨by decide, by decide, by decide, by decide⟩

/-- Filtering a duplicate-free list for a condition matched (up to equality)
only by `r` yields exactly `[r]`. -/
theorem filter_eq_singleton_of_unique {α : Type} {l : List α} {f : α → Bool}
    {r : α} (hnd : l.Nodup) (hr : r ∈ l) (hfr : f r = true)
    (hall : ∀ x ∈ l, f x = true → x = r) : l.filter f = [r] := by
  have h1 : ∀ x ∈ l.filter f, x = r := fun x hx =>
    hall x (List.mem_of_mem_filter hx) (List.of_mem_filter hx)
  have h2 : r ∈ l.filter f := List.mem_filter.mpr ⟨hr, hfr⟩
  have h3 : (l.filter f).Nodup := hnd.filter _
  cases hflt : l.filter f with
  | nil => rw [hflt] at h2; cases h2
  | cons a t =>
    have ha : a = r := h1 a (by rw [hflt]; exact List.mem_cons_self a t)
    cases t with
    | nil => rw [ha]
    | cons b t2 =>
      have hb : b = r := h1 b (by rw [hflt]; exact List.mem_cons_of_mem a (List.mem_cons_self b t2))
      rw [hflt] at h3
      rw [List.nodup_cons] at h3
      exact absurd (by rw [ha, ← hb]; exact List.mem_cons_self b t2) h3.1

/-- If a `.single()` read over a duplicate-free table whose matches are
pairwise equal comes back empty, no row matches. -/
theorem singleRow?_none_no_match {l : List ProposalRow} {f : ProposalRow → Bool}
    (hnd : l.Nodup) (hall : ∀ x ∈ l, ∀ y ∈ l, f x = true → f y = true → x = y)
    (hnone : singleRow? (l.filter f) = none) : ∀ r ∈ l, f r = false := by
  intro r hr
  by_contra hcontra
  rw [Bool.not_eq_false] at hcontra
  have := filter_eq_singleton_of_unique hnd hr hcontra
    (fun x hx hfx => hall x hx r hr hfx hcontra)
  rw [this] at hnone
  simp [singleRow?] at hnone

/-- C6: proposing an existing (session, person, trimmed title) triple returns
the existing proposal's id with the table unchanged, and the propose operation
preserves key-uniqueness of proposals. -/
theorem propose_no_duplicate (sessionId personId movieTitle newId : String)
    (db : List ProposalRow) (hu : proposalKeyUnique db) (hnd : db.Nodup) :
    (∀ r ∈ db, r.session_id = sessionId → r.person_id = personId →
      r.movie_title = movieTitle.trim → sessionId ≠ "" → personId ≠ "" →
      movieTitle.trim ≠ "" →
      proposeMovieWithDetails sessionId personId movieTitle newId db =
        (some r.id, db)) ∧
    proposalKeyUnique
      (proposeMovieWithDetails sessionId personId movieTitle newId db).2 := by
  set f : ProposalRow → Bool := fun p =>
    p.session_id == sessionId && p.person_id == personId &&
      p.movie_title == movieTitle.trim with hf
  constructor
  · intro r hr h1 h2 h3 hs hp ht
    have hsne : (sessionId == "") = false := by simpa using hs
    have hpne : (personId == "") = false := by simpa using hp
    have htne : (movieTitle.trim == "") = false := by simpa using ht
    rw [proposeMovieWithDetails, hsne, hpne, htne]
    simp only [Bool.or_self, Bool.or_false, Bool.false_or, Bool.false_eq_true, if_false]
    have hfilt : db.filter f = [r] := by
      refine filter_eq_singleton_of_unique hnd hr (by simp [hf, h1, h2, h3]) ?_
      intro x hx hfx
      rw [hf] at hfx
      simp only [Bool.and_eq_true, beq_iff_eq] at hfx
      exact hu x hx r hr (hfx.1.1.trans h1.symm) (hfx.1.2.trans h2.symm)
        (hfx.2.trans h3.symm)
    rw [hf] at hfilt
    rw [hfilt]
    rfl
  · by_cases hguard : (sessionId == "" || personId == "" || movieTitle.trim == "") = true
    · rw [proposeMovieWithDetails, hguard]
      simpa using hu
    · rw [Bool.not_eq_true] at hguard
      rw [proposeMovieWithDetails, hguard]
      simp only [Bool.false_eq_true, if_false]
      cases hsr : singleRow? (db.filter f) with
      | some row => simpa using hu
      | none =>
        simp only []
        have hnomatch := singleRow?_none_no_match hnd
          (fun x hx y hy hfx hfy => by
            rw [hf] at hfx hfy
            simp only [Bool.and_eq_true, beq_iff_eq] at hfx hfy
            exact hu x hx y hy (hfx.1.1.trans hfy.1.1.symm)
              (hfx.1.2.trans hfy.1.2.symm) (hfx.2.trans hfy.2.symm)) hsr
        intro p hp q hq e1 e2 e3
        rw [List.mem_append] at hp hq
        rcases hp with hp | hp <;> rcases hq with hq | hq
        · exact hu p hp q hq e1 e2 e3
        · exfalso
          have hq' : q = ⟨newId, sessionId, personId, movieTitle.trim⟩ := by
            simpa using hq
          have := hnomatch p hp
          rw [hf] at this
          rw [hq'] at e1 e2 e3
          simp [e1, e2, e3] at this
        · exfalso
          have hp' : p = ⟨newId, sessionId, personId, movieTitle.trim⟩ := by
            simpa using hp
          have := hnomatch q hq
          rw [hf] at this
          rw [hp'] at e1 e2 e3
          simp [← e1, ← e2, ← e3] at this
        · have hp' : p = ⟨newId, sessionId, personId, movieTitle.trim⟩ := by
            simpa using hp
          have hq' : q = ⟨newId, sessionId, personId, movieTitle.trim⟩ := by
            simpa using hq
          rw [hp', hq']

/-- C6 witness: the propose-idempotence theorem applied to a concrete
two-row table. -/
theorem propose_no_duplicate_witness :
    proposalKeyUnique dbC6 ∧ dbC6.Nodup ∧
    ((∀ r ∈ dbC6, r.session_id = "s1" → r.person_id = "a" →
      r.movie_title = ("Dune" : String).trim → ("s1" : String) ≠ "" →
      ("a" : String) ≠ "" → ("Dune" : String).trim ≠ "" →
      proposeMovieWithDetails "s1" "a" "Dune" "p9" dbC6 = (some r.id, dbC6)) ∧
    proposalKeyUnique (proposeMovieWithDetails "s1" "a" "Dune" "p9" dbC6).2) :=
  ⟨by unfold proposalKeyUnique; decide, by decide,
    propose_no_duplicate "s1" "a" "Dune" "p9" dbC6
      (by unfold proposalKeyUnique; decide) (by decide)⟩

/-- Over detailed-rating rows with unique (movie, person) keys, `find?` on a
pair returns the row known to carry that pair. -/
theorem find?_detailed_unique {rows : List DetailedRating} {r : DetailedRating}
    {movieId personId : String}
    (hkeys : (rows.map (fun x => (x.watched_movie_id, x.person_id))).Nodup)
    (hr : r ∈ rows) (hm : r.watched_movie_id = movieId)
    (hp : r.person_id = personId) :
    rows.find? (fun x =>
      x.watched_movie_id == movieId && x.person_id == personId) = some r := by
  induction rows with
  | nil => cases hr
  | cons a t ih =>
    rw [List.map_cons, List.nodup_cons] at hkeys
    by_cases hfa : (a.watched_movie_id == movieId && a.person_id == personId) = true
    · rw [List.find?_cons, hfa]
      simp only [cond_true]
      rcases List.mem_cons.mp hr with rfl | hrt
      · rfl
      · exfalso
        rw [Bool.and_eq_true, beq_iff_eq, beq_iff_eq] at hfa
        refine hkeys.1 ?_
        have : (a.watched_movie_id, a.person_id) =
            (r.watched_movie_id, r.person_id) := by
          rw [hfa.1, hfa.2, hm, hp]
        rw [this]
        exact List.mem_map_of_mem _ hrt
    · rw [Bool.not_eq_true] at hfa
      rw [List.find?_cons, hfa]
      simp only [cond_false]
      rcases List.mem_cons.mp hr with rfl | hrt
      · rw [hm, hp] at hfa
        simp at hfa
      · exact ih hkeys.2 hrt

/-- C7: an explicit stored rating of 0 reads back as `some 0`, while a missing
row or a null-rated row reads back as `none`. -/
theorem getRatingForPerson_zero_vs_absent (movieId personId : String)
    (rows : List DetailedRating)
    (hkeys : (rows.map (fun x => (x.watched_movie_id, x.person_id))).Nodup) :
    (∀ r ∈ rows, r.watched_movie_id = movieId → r.person_id = personId →
      r.rating = some 0 → getRatingForPerson movieId personId rows = some 0) ∧
    ((∀ r ∈ rows, ¬(r.watched_movie_id = movieId ∧ r.person_id = personId)) →
      getRatingForPerson movieId personId rows = none) ∧
    (∀ r ∈ rows, r.watched_movie_id = movieId → r.person_id = personId →
      r.rating = none → getRatingForPerson movieId personId rows = none) := by
  refine ⟨?_, ?_, ?_⟩
  · intro r hr hm hp hzero
    rw [getRatingForPerson, find?_detailed_unique hkeys hr hm hp]
    simpa using hzero
  · intro hnone
    rw [getRatingForPerson, List.find?_eq_none.mpr]
    · rfl
    · intro x hx
      have := hnone x hx
      simp only [Bool.and_eq_true, beq_iff_eq, not_and]
      intro h1 h2
      exact this ⟨h1, h2⟩
  · intro r hr hm hp hnull
    rw [getRatingForPerson, find?_detailed_unique hkeys hr hm hp]
    simpa using hnull

/-- C7 witness: the zero-vs-absent theorem applied to `rowsC7`. -/
theorem getRatingForPerson_zero_vs_absent_witness :
    ((rowsC7.map (fun x => (x.watched_movie_id, x.person_id))).Nodup) ∧
    ((∀ r ∈ rowsC7, r.watched_movie_id = "w1" → r.person_id = "a" →
      r.rating = some 0 → getRatingForPerson "w1" "a" rowsC7 = some 0) ∧
    ((∀ r ∈ rowsC7, ¬(r.watched_movie_id = "w1" ∧ r.person_id = "c")) →
      getRatingForPerson "w1" "c" rowsC7 = none) ∧
    (∀ r ∈ rowsC7, r.watched_movie_id = "w1" → r.person_id = "b" →
      r.rating = none → getRatingForPerson "w1" "b" rowsC7 = none)) :=
  ⟨by decide,
    (getRatingForPerson_zero_vs_absent "w1" "a" rowsC7 (by decide)).1,
    (getRatingForPerson_zero_vs_absent "w1" "c" rowsC7 (by decide)).2.1,
    (getRatingForPerson_zero_vs_absent "w1" "b" rowsC7 (by decide)).2.2⟩

/-- C8: with a null score and `present` not true, `updateDetailedRating`
leaves both the persisted table and the local state entirely unchanged (so
writes happen only when a score is given or `present` is true). -/
theorem updateDetailedRating_noop (watchedMovieId personId newId tempId : String)
    (rating : Option Rat) (present : Option Bool)
    (db localRatings : List DetailedRating)
    (hr : rating = none) (hp : present ≠ some true) :
    updateDetailedRating watchedMovieId personId rating present newId tempId
      db localRatings = (db, localRatings) := by
  rw [updateDetailedRating, if_neg]
  rw [Bool.or_eq_true, not_or, hr]
  exact ⟨by simp, by simpa using hp⟩

/-- C8 witness: the no-op theorem applied with `present = some false` on
concrete tables. -/
theorem updateDetailedRating_noop_witness :
    (none : Option Rat) = none ∧ (some false : Option Bool) ≠ some true ∧
    updateDetailedRating "w1" "a" none (some false) "d9" "temp-1"
      rowsC7 rowsC7 = (rowsC7, rowsC7) :=
  ⟨rfl, by decide,
    updateDetailedRating_noop "w1" "a" "d9" "temp-1" none (some false)
      rowsC7 rowsC7 rfl (by decide)⟩

/-- The own-proposal guard is false whenever the proposer is absent, blank, or
a different person. -/
theorem ownGuard_false {proposer : Option String} {sel : String}
    (hnotown : ∀ pp, proposer = some pp → pp = "" ∨ pp ≠ sel) :
    ownProposalGuard proposer sel = false := by
  cases proposer with
  | none => rfl
  | some pp =>
    rcases hnotown pp rfl with h | h
    · simp [ownProposalGuard, h]
    · simp [ownProposalGuard, h]

/-- C9: with no selected person or on one's own proposal, `toggleFavourite`
changes no rows and emits a notice; otherwise, favouriting a proposal
different from the person's current favourite leaves exactly one favourite row
for that person, now pointing at the new proposal. -/
theorem toggleFavourite_spec (s : FavState) (proposalId newId : String)
    (proposer : Option String) :
    (∀ sel : Option String, sel = none ∨ sel = some "" →
      (toggleFavourite sel proposalId proposer newId s).rows = s.rows ∧
      (toggleFavourite sel proposalId proposer newId s).favoriteProposalId =
        s.favoriteProposalId ∧
      (toggleFavourite sel proposalId proposer newId s).notices =
        s.notices ++ ["Select a person"]) ∧
    (∀ sel : String, sel ≠ "" → proposer = some sel →
      (toggleFavourite (some sel) proposalId proposer newId s).rows = s.rows ∧
      (toggleFavourite (some sel) proposalId proposer newId s).favoriteProposalId =
        s.favoriteProposalId ∧
      (toggleFavourite (some sel) proposalId proposer newId s).notices =
        s.notices ++ ["Not allowed"]) ∧
    (∀ (sel : String) (rowY : FavouriteRow), sel ≠ "" →
      (∀ pp, proposer = some pp → pp = "" ∨ pp ≠ sel) →
      s.rows.filter (fun r => r.person_id == sel) = [rowY] →
      rowY.proposal_id ≠ proposalId →
      (toggleFavourite (some sel) proposalId proposer newId s).rows.filter
          (fun r => r.person_id == sel) =
        [{ rowY with proposal_id := proposalId }] ∧
      (toggleFavourite (some sel) proposalId proposer newId s).favoriteProposalId =
        some proposalId) := by
  refine ⟨?_, ?_, ?_⟩
  · rintro sel (rfl | rfl)
    · exact ⟨rfl, rfl, rfl⟩
    · exact ⟨rfl, rfl, rfl⟩
  · intro sel hsel hprop
    have hsel' : (sel == "") = false := by simpa using hsel
    rw [toggleFavourite.eq_def]
    simp only [hsel', Bool.false_eq_true, if_false]
    rw [hprop, if_pos (by simp [ownProposalGuard, hsel])]
    exact ⟨rfl, rfl, rfl⟩
  · intro sel rowY hsel hnotown hfilter hne
    have hsel' : (sel == "") = false := by simpa using hsel
    have hYmem : rowY ∈ s.rows ∧ (rowY.person_id == sel) = true := by
      have hY : rowY ∈ s.rows.filter (fun r => r.person_id == sel) := by
        rw [hfilter]; exact List.mem_singleton.mpr rfl
      exact ⟨(List.mem_filter.mp hY).1, (List.mem_filter.mp hY).2⟩
    have hupd : toggleFavourite (some sel) proposalId proposer newId s =
        { s with
          rows := upsertFavourite s.rows sel proposalId newId
          favoriteProposalId := some proposalId } := by
      rw [toggleFavourite.eq_def]
      simp only [hsel', Bool.false_eq_true, if_false]
      rw [ownGuard_false hnotown]
      simp only [Bool.false_eq_true, if_false]
      rw [hfilter]
      show (if (rowY.proposal_id == proposalId) = true then _ else _) = _
      rw [if_neg (by simpa using hne)]
    rw [hupd]
    refine ⟨?_, rfl⟩
    show (upsertFavourite s.rows sel proposalId newId).filter _ = _
    rw [upsertFavourite,
      if_pos (List.any_eq_true.mpr ⟨rowY, hYmem.1, hYmem.2⟩)]
    rw [List.filter_map]
    have hcongr : s.rows.filter
        ((fun r => r.person_id == sel) ∘ (fun r =>
          if r.person_id == sel then { r with proposal_id := proposalId }
          else r)) = s.rows.filter (fun r => r.person_id == sel) := by
      refine List.filter_congr ?_
      intro x _
      by_cases hx : (x.person_id == sel) = true <;>
        simp [Function.comp, hx]
    rw [hcongr, hfilter, List.map_singleton, if_pos hYmem.2]

/-- C10: toggling the proposal that is already the person's favourite deletes
the favourite row outright, leaving that person with no favourite row and the
local favourite cleared. -/
theorem toggleFavourite_unfavourite (s : FavState)
    (proposalId newId sel : String) (proposer : Option String)
    (rowY : FavouriteRow) (hsel : sel ≠ "")
    (hnotown : ∀ pp, proposer = some pp → pp = "" ∨ pp ≠ sel)
    (hfilter : s.rows.filter (fun r => r.person_id == sel) = [rowY])
    (hmatch : rowY.proposal_id = proposalId) :
    (toggleFavourite (some sel) proposalId proposer newId s).rows =
      s.rows.filter (fun r => r.person_id != sel) ∧
    (toggleFavourite (some sel) proposalId proposer newId s).rows.filter
      (fun r => r.person_id == sel) = [] ∧
    (toggleFavourite (some sel) proposalId proposer newId s).favoriteProposalId =
      none := by
  have hsel' : (sel == "") = false := by simpa using hsel
  have hupd : toggleFavourite (some sel) proposalId proposer newId s =
      { s with
        rows := s.rows.filter (fun r => r.person_id != sel)
        favoriteProposalId := none } := by
    rw [toggleFavourite.eq_def]
    simp only [hsel', Bool.false_eq_true, if_false]
    rw [ownGuard_false hnotown]
    simp only [Bool.false_eq_true, if_false]
    rw [hfilter]
    show (if (rowY.proposal_id == proposalId) = true then _ else _) = _
    rw [if_pos (by simpa using hmatch)]
  rw [hupd]
  refine ⟨rfl, ?_, rfl⟩
  show (s.rows.filter _).filter _ = _
  rw [List.filter_filter]
  refine List.filter_eq_nil_iff.mpr ?_
  intro r _
  by_cases hx : (r.person_id == sel) = true
  · simp [(by simpa using hx : r.person_id = sel)]
  · simp [hx]

/-- C9 witness: the toggle theorem applied to `sC9` for the three branches. -/
theorem toggleFavourite_spec_witness :
    ((toggleFavourite none "X" (some "a") "f2" sC9).rows = sC9.rows ∧
     (toggleFavourite none "X" (some "a") "f2" sC9).favoriteProposalId =
       sC9.favoriteProposalId ∧
     (toggleFavourite none "X" (some "a") "f2" sC9).notices =
       sC9.notices ++ ["Select a person"]) ∧
    ((toggleFavourite (some "a") "X" (some "a") "f2" sC9).rows = sC9.rows ∧
     (toggleFavourite (some "a") "X" (some "a") "f2" sC9).favoriteProposalId =
       sC9.favoriteProposalId ∧
     (toggleFavourite (some "a") "X" (some "a") "f2" sC9).notices =
       sC9.notices ++ ["Not allowed"]) ∧
    ((toggleFavourite (some "b") "X" (some "a") "f2" sC9).rows.filter
        (fun r => r.person_id == "b") = [⟨"f1", "b", "X"⟩] ∧
     (toggleFavourite (some "b") "X" (some "a") "f2" sC9).favoriteProposalId =
       some "X") :=
  have T := toggleFavourite_spec sC9 "X" "f2" (some "a")
  ⟨T.1 none (Or.inl rfl),
   T.2.1 "a" (by decide) rfl,
   T.2.2 "b" ⟨"f1", "b", "Y"⟩ (by decide)
     (by intro pp h; rw [Option.some_inj] at h; subst h; right; decide)
     (by decide) (by decide)⟩

/-- C10 witness: the un-favourite theorem applied to `sC10`. -/
theorem toggleFavourite_unfavourite_witness :
    (toggleFavourite (some "b") "X" (some "a") "f2" sC10).rows =
      sC10.rows.filter (fun r => r.person_id != "b") ∧
    (toggleFavourite (some "b") "X" (some "a") "f2" sC10).rows.filter
      (fun r => r.person_id == "b") = [] ∧
    (toggleFavourite (some "b") "X" (some "a") "f2" sC10).favoriteProposalId =
      none :=
  toggleFavourite_unfavourite sC10 "X" "f2" "b" (some "a") ⟨"f1", "b", "X"⟩
    (by decide)
    (by intro pp h; rw [Option.some_inj] at h; subst h; right; decide)
    (by decide) (by decide)

end MovieTally
